import Mathlib

/-!
Verification of the Product Identity Resolution Engine of the bg-remover
repository (`src/agentic/pydantic_ai/product_grouper.py`).

The Python source is shallowly embedded here:

* Python floats become `ℚ` where only comparisons and arithmetic on scores
  matter (clustering, classification, state machinery), and `ℝ` where the
  actual analytic value matters (`cosine_similarity`, which divides by a
  product of square roots).
* The DynamoDB table is modelled as an explicit `GrouperState` holding the
  tenant's embedding records and product-group records; every storage
  operation becomes a pure state-passing function.
* External collaborators that the source itself stubs out
  (`_generate_batch_image_embeddings`, `_calculate_multi_signal_similarity`)
  are abstracted as parameters: the batch-embedding outcome is an input
  to the batch pipeline, and the pairwise similarity used by clustering is
  a function parameter `sim`, exactly as the claims quantify over them.
* `uuid.uuid4()` group-id generation and wall-clock timestamps are
  abstracted: fresh group ids are explicit arguments and timestamp fields
  are elided, since no claim mentions them.
* the duplicate-keyword `TypeError` that step 6 of the batch pipeline
  raises while recomputing a materialized group's confidence (lines
  641-645) is modelled as the explicit `BatchError` outcome of the
  pipeline, so the pipeline's result type is `Except`.
-/

namespace ProductGrouper

/-- The four similarity classifications of `SimilarityMatch.matchType`. -/
inductive MatchType where
  | SAME_PRODUCT
  | LIKELY_SAME
  | POSSIBLY_SAME
  | DIFFERENT
deriving DecidableEq, Repr

/-- `SIMILARITY_THRESHOLDS['SAME_PRODUCT']` (product_grouper.py line 107),
written as `mkRat 92 100` so concrete runs reduce in the kernel (the
decimal-literal construction of `ℚ` is irreducible by design). -/
def THRESHOLD_SAME_PRODUCT : ℚ := mkRat 92 100

/-- `SIMILARITY_THRESHOLDS['LIKELY_SAME']` (line 108). -/
def THRESHOLD_LIKELY_SAME : ℚ := mkRat 85 100

/-- `SIMILARITY_THRESHOLDS['POSSIBLY_SAME']` (line 109). -/
def THRESHOLD_POSSIBLY_SAME : ℚ := mkRat 75 100

/-- The same-product threshold is the decimal `0.92` of the source. -/
theorem THRESHOLD_SAME_PRODUCT_eq : THRESHOLD_SAME_PRODUCT = 0.92 := by
  norm_num [THRESHOLD_SAME_PRODUCT, Rat.mkRat_eq_div]

/-- The likely-same threshold is the decimal `0.85` of the source. -/
theorem THRESHOLD_LIKELY_SAME_eq : THRESHOLD_LIKELY_SAME = 0.85 := by
  norm_num [THRESHOLD_LIKELY_SAME, Rat.mkRat_eq_div]

/-- The possibly-same threshold is the decimal `0.75` of the source. -/
theorem THRESHOLD_POSSIBLY_SAME_eq : THRESHOLD_POSSIBLY_SAME = 0.75 := by
  norm_num [THRESHOLD_POSSIBLY_SAME, Rat.mkRat_eq_div]

/-- `classify_similarity` (lines 148-152): band a score into a match type
by successive threshold tests. -/
def classify_similarity (similarity : ℚ) : MatchType :=
  if similarity ≥ THRESHOLD_SAME_PRODUCT then .SAME_PRODUCT
  else if similarity ≥ THRESHOLD_LIKELY_SAME then .LIKELY_SAME
  else if similarity ≥ THRESHOLD_POSSIBLY_SAME then .POSSIBLY_SAME
  else .DIFFERENT

/-- Characters kept by the regex `[^a-zA-Z0-9_-]` in `sanitize_tenant`
(line 129): ASCII letters, digits, underscore and hyphen survive. -/
def isAllowedTenantChar (c : Char) : Bool :=
  (c ≥ 'a' && c ≤ 'z') || (c ≥ 'A' && c ≤ 'Z') || (c ≥ '0' && c ≤ '9')
    || c = '_' || c = '-'

/-- Error raised by `sanitize_tenant` when nothing survives stripping
(the `ValueError` of line 133). -/
inductive TenantError where
  | invalidTenant
deriving DecidableEq, Repr

/-- `sanitize_tenant` (lines 128-134): strip every character outside
`[a-zA-Z0-9_-]`; raise when the stripped result is empty. -/
def sanitize_tenant (tenant : String) : Except TenantError String :=
  let sanitized := String.mk (tenant.toList.filter isAllowedTenantChar)
  if sanitized.isEmpty then .error .invalidTenant else .ok sanitized

/-- Errors raised by `cosine_similarity` (lines 137-140): the two
`ValueError`s for empty input and for mismatched dimensions. -/
inductive SimilarityError where
  | emptyVector
  | dimensionMismatch
deriving DecidableEq, Repr

/-- Equality of `Except` results is decidable when both components are,
so concrete runs of the fallible operations can be checked by `decide`. -/
instance {e a : Type} [DecidableEq e] [DecidableEq a] :
    DecidableEq (Except e a) := fun x y =>
  match x, y with
  | .ok v, .ok w =>
    if h : v = w then .isTrue (by rw [h]) else .isFalse (by simp [h])
  | .error v, .error w =>
    if h : v = w then .isTrue (by rw [h]) else .isFalse (by simp [h])
  | .ok _, .error _ => .isFalse (by simp)
  | .error _, .ok _ => .isFalse (by simp)

/-- Sum of coordinatewise products, `sum(x * y for x, y in zip(a, b))`
(line 142). -/
def dotProduct (a b : List ℝ) : ℝ :=
  (List.zipWith (· * ·) a b).sum

/-- Sum of squares of a vector, the radicand of `norm_a` / `norm_b`
(lines 143-144). -/
def sumSq (a : List ℝ) : ℝ :=
  (a.map fun x => x * x).sum

/-- `cosine_similarity` (lines 136-146): raise on an empty argument, raise
on mismatched lengths, return `0` when the product of the norms is zero,
otherwise the dot product divided by the product of the norms. -/
noncomputable def cosine_similarity (a b : List ℝ) : Except SimilarityError ℝ :=
  if a.isEmpty || b.isEmpty then .error .emptyVector
  else if a.length ≠ b.length then .error .dimensionMismatch
  else
    let norm_a := Real.sqrt (sumSq a)
    let norm_b := Real.sqrt (sumSq b)
    if norm_a * norm_b ≠ 0 then .ok (dotProduct a b / (norm_a * norm_b))
    else .ok 0

/-- The `ProductEmbedding` pydantic model (lines 77-81); metadata elided,
vector components as `ℚ`. -/
structure ProductEmbedding where
  imageId : String
  embedding : List ℚ
  productGroupId : Option String := none
deriving DecidableEq, Repr

/-- Inner loop of `cluster_by_similarity` (lines 501-519): scan every
embedding, skip those already assigned, and add to the current cluster
every one whose similarity to the seed `item` reaches the threshold,
appending its id to `assigned` as it is added.  Returns the ids appended
to the cluster (in scan order) together with the final `assigned` list.
The similarity computation of lines 505-515 (multi-signal when enabled and
metadata exists for both images, else cosine) is abstracted as `sim`. -/
def clusterScan (sim : ProductEmbedding → ProductEmbedding → ℚ) (threshold : ℚ)
    (item : ProductEmbedding) :
    List ProductEmbedding → List String → List String × List String
  | [], assigned => ([], assigned)
  | other :: rest, assigned =>
    if other.imageId ∈ assigned then
      clusterScan sim threshold item rest assigned
    else if sim item other ≥ threshold then
      let r := clusterScan sim threshold item rest (assigned ++ [other.imageId])
      (other.imageId :: r.1, r.2)
    else
      clusterScan sim threshold item rest assigned

/-- Outer loop of `cluster_by_similarity` (lines 494-520): iterate the
embeddings in input order; an item already assigned is skipped, otherwise
it seeds a new cluster and the inner scan over all embeddings fills it. -/
def clusterLoop (sim : ProductEmbedding → ProductEmbedding → ℚ) (threshold : ℚ)
    (all : List ProductEmbedding) :
    List ProductEmbedding → List String → List (List String)
  | [], _ => []
  | item :: rest, assigned =>
    if item.imageId ∈ assigned then
      clusterLoop sim threshold all rest assigned
    else
      let r := clusterScan sim threshold item all (assigned ++ [item.imageId])
      (item.imageId :: r.1) :: clusterLoop sim threshold all rest r.2

/-- `cluster_by_similarity` (lines 483-521): greedy seed-based single-link
clustering of `embeddings` at `threshold` under the pairwise similarity
`sim`, starting from an empty `assigned` set. -/
def cluster_by_similarity (sim : ProductEmbedding → ProductEmbedding → ℚ)
    (threshold : ℚ) (embeddings : List ProductEmbedding) : List (List String) :=
  clusterLoop sim threshold embeddings embeddings []

/-- The `ProductGroup` pydantic model (lines 83-92); the timestamp fields
`createdAt`/`updatedAt` are elided (wall clock), `confidence` is `ℚ`. -/
structure ProductGroup where
  groupId : String
  primaryImageId : String
  imageIds : List String
  productName : Option String := none
  category : Option String := none
  confidence : ℚ
  tenant : String
deriving DecidableEq, Repr

/-- A tenant's slice of the DynamoDB table `carousel-main-dev`: the
`TENANT#t#EMBEDDING` partition and the `TENANT#t#PRODUCT_GROUP` partition,
as explicit lists of records.  DynamoDB keys are unique, so well-formed
states have `Nodup` ids; theorems assume that where they need it. -/
structure GrouperState where
  embeddings : List ProductEmbedding
  groups : List ProductGroup
deriving DecidableEq, Repr

/-- `store_embedding` (lines 228-249): `put_item` upserts the whole item
under key `IMAGE#image_id`, so an existing record for the id is replaced
(its `productGroupId` attribute disappears), otherwise a fresh record is
written. -/
def store_embedding (s : GrouperState) (image_id : String) (embedding : List ℚ) :
    GrouperState :=
  if s.embeddings.any (fun e => e.imageId = image_id) then
    { s with embeddings := s.embeddings.map fun e =>
        if e.imageId = image_id then ⟨image_id, embedding, none⟩ else e }
  else
    { s with embeddings := s.embeddings ++ [⟨image_id, embedding, none⟩] }

/-- The `SimilarityMatch` pydantic model (lines 94-98). -/
structure SimilarityMatch where
  imageId : String
  similarity : ℚ
  matchType : MatchType
  groupId : Option String := none
deriving DecidableEq, Repr

/-- Stable insertion step of the descending sort performed by
`sorted(matches, key=..., reverse=True)` (line 314): a match moves in
front of the first element whose similarity does not exceed its own, so
equal keys keep their original relative order, as Python's stable sort
guarantees. -/
def insertDesc (m : SimilarityMatch) : List SimilarityMatch → List SimilarityMatch
  | [] => [m]
  | x :: xs =>
    if x.similarity ≤ m.similarity then m :: x :: xs else x :: insertDesc m xs

/-- Stable descending-by-similarity sort (line 314). -/
def sortDesc : List SimilarityMatch → List SimilarityMatch
  | [] => []
  | m :: ms => insertDesc m (sortDesc ms)

/-- `find_similar_images` (lines 285-314): walk the tenant's stored
embeddings, skip the excluded id, classify the similarity of each
remaining record against the query embedding, keep the non-`DIFFERENT`
ones as matches, and return them sorted by descending similarity.  The
call to `cosine_similarity` is abstracted as the total score function
`sim` (the per-record `ValueError` catch of lines 311-312 never fires for
a total `sim`). -/
def find_similar_images (sim : List ℚ → List ℚ → ℚ) (s : GrouperState)
    (embedding : List ℚ) (exclude_image_id : Option String) :
    List SimilarityMatch :=
  let matchList := s.embeddings.filterMap fun existing =>
    if exclude_image_id = some existing.imageId then none
    else
      let similarity := sim embedding existing.embedding
      let match_type := classify_similarity similarity
      if match_type ≠ .DIFFERENT then
        some ⟨existing.imageId, similarity, match_type, existing.productGroupId⟩
      else none
  sortDesc matchList

/-- Error raised by `create_product_group` on an empty id list (the
`ValueError` of line 324). -/
inductive GroupError where
  | emptyGroup
deriving DecidableEq, Repr

/-- `link_image_to_group` (lines 357-379): `update_item` sets the
`productGroupId` attribute on the embedding record keyed by the image id
(DynamoDB keys are unique, so the first matching record is the item). -/
def link_image_to_group (s : GrouperState) (image_id group_id : String) :
    GrouperState :=
  { s with embeddings := s.embeddings.map fun e =>
      if e.imageId = image_id then { e with productGroupId := some group_id } else e }

/-- `create_product_group` (lines 316-355): reject an empty id list, build
the group record with the first id as primary and confidence `1.0`
(line 337), append it to the group partition, then link every member
image to the group.  The fresh `uuid` id of line 327 is the explicit
argument `group_id`. -/
def create_product_group (s : GrouperState) (image_ids : List String)
    (tenant : String) (group_id : String)
    (product_name : Option String := none) (category : Option String := none) :
    Except GroupError (ProductGroup × GrouperState) :=
  if image_ids.isEmpty then .error .emptyGroup
  else
    let group : ProductGroup :=
      { groupId := group_id
        primaryImageId := image_ids.headI
        imageIds := image_ids
        productName := product_name
        category := category
        confidence := 1
        tenant := tenant }
    let s1 := { s with groups := s.groups ++ [group] }
    let s2 := image_ids.foldl (fun acc id => link_image_to_group acc id group_id) s1
    .ok (group, s2)

/-- `get_product_group_by_id` (lines 416-429): `get_item` on the unique
group key. -/
def get_product_group_by_id (s : GrouperState) (group_id : String) :
    Option ProductGroup :=
  s.groups.find? fun g => g.groupId = group_id

/-- Conditional-append update of the group record keyed by `group_id`
(DynamoDB keys are unique, so only the first match is the item). -/
def appendToGroup (group_id image_id : String) :
    List ProductGroup → List ProductGroup
  | [] => []
  | g :: rest =>
    if g.groupId = group_id then
      { g with imageIds := g.imageIds ++ [image_id] } :: rest
    else g :: appendToGroup group_id image_id rest

/-- `add_image_to_group_record` (lines 381-414): conditional
`list_append` guarded by `NOT contains(#imageIds, :imageId)`.  When the
condition fails the exception handler returns the current group state
unchanged (lines 410-412); when it succeeds the appended record is
returned (`ReturnValues='ALL_NEW'`).  A missing group record yields
`none` (the real call would fail pydantic validation on a partial item). -/
def add_image_to_group_record (s : GrouperState) (image_id group_id : String) :
    GrouperState × Option ProductGroup :=
  match s.groups.find? (fun g => g.groupId = group_id) with
  | none => (s, none)
  | some g =>
    if image_id ∈ g.imageIds then
      (s, get_product_group_by_id s group_id)
    else
      let s1 := { s with groups := appendToGroup group_id image_id s.groups }
      (s1, some { g with imageIds := g.imageIds ++ [image_id] })

/-- Result record of `process_image_for_grouping` (lines 476-481); the
`embedding` entry is the argument itself and is elided. -/
structure ProcessResult where
  similarImages : List SimilarityMatch
  assignedGroup : Option ProductGroup
  isNewGroup : Bool
deriving DecidableEq, Repr

/-- `process_image_for_grouping` (lines 448-481): store the embedding,
rank similar images excluding the image's own id, then decide on the best
match: a `SAME_PRODUCT` match that carries a group id joins that group
(link + conditional append); otherwise a `SAME_PRODUCT` or `LIKELY_SAME`
match seeds a brand-new two-member group.  Embedding generation is the
caller-supplied `embedding`; the fresh group id of the creation branch is
the explicit argument `new_group_id`. -/
def process_image_for_grouping (sim : List ℚ → List ℚ → ℚ) (s : GrouperState)
    (image_id : String) (embedding : List ℚ) (tenant : String)
    (new_group_id : String) : GrouperState × ProcessResult :=
  let s1 := store_embedding s image_id embedding
  let similar_images := find_similar_images sim s1 embedding (some image_id)
  match similar_images.head? with
  | some best_match =>
    if h : best_match.matchType = .SAME_PRODUCT ∧ best_match.groupId.isSome then
      let gid := best_match.groupId.get h.2
      let s2 := link_image_to_group s1 image_id gid
      let r := add_image_to_group_record s2 image_id gid
      (r.1, ⟨similar_images, r.2, false⟩)
    else if best_match.matchType = .SAME_PRODUCT ∨ best_match.matchType = .LIKELY_SAME then
      match create_product_group s1 [image_id, best_match.imageId] tenant new_group_id with
      | .ok (group, s2) => (s2, ⟨similar_images, some group, true⟩)
      | .error _ => (s1, ⟨similar_images, none, false⟩)
    else
      (s1, ⟨similar_images, none, false⟩)
  | none => (s1, ⟨similar_images, none, false⟩)

/-- Outcome of the batched embedding call
`_generate_batch_image_embeddings` (lines 552-577): per-image embeddings
that succeeded, in iteration order, and the image ids that failed (the
`errors` list, each carrying its `imageId`).  The service itself is an
external collaborator, so the outcome is an input of the pipeline. -/
structure BatchEmbedResult where
  embeddings : List (String × List ℚ)
  errors : List String
deriving DecidableEq, Repr

/-- Summary returned by `batch_process_with_multi_signal` (lines 655-661).
Created groups are represented by their member-id lists, i.e. the
argument each one passes to `create_product_group` at line 617. -/
structure BatchOutput where
  groups : List (List String)
  ungrouped : List String
  processed : ℕ
deriving DecidableEq, Repr

/-- The exception with which the pipeline's step 6 aborts: the
reconstruction `ProductGroup(**product_group.model_dump(),
confidence=total_score / comparisons)` at lines 641-645 passes the
`confidence` keyword twice — once inside `model_dump()`, once explicitly
— which is a `TypeError` raised at the call site, before the constructor
runs. -/
inductive BatchError where
  | duplicateConfidenceKeyword
deriving DecidableEq, Repr

/-- `settings.enabled` as seen by the pipeline: the placeholder
`loadSettings` of lines 535-539 hard-codes multi-signal mode on. -/
def multiSignalEnabled : Bool := true

/-- The key set of `image_metadata_map` (line 549): feature extraction
(line 546) runs over every image of the batch input, before embedding
generation, so both the successfully embedded ids and the failed ids
carry extracted features. -/
def batchMetadataIds (batch : BatchEmbedResult) : List String :=
  batch.embeddings.map (·.1) ++ batch.errors

/-- The `comparisons` counter of the double loop at lines 625-638: one
increment for every pair `i < j` of cluster members that both carry
extracted features. -/
def metaComparisons (metadata_ids : List String) : List String → ℕ
  | [] => 0
  | x :: rest =>
    (if x ∈ metadata_ids then
      (rest.filter fun y => y ∈ metadata_ids).length
    else 0) + metaComparisons metadata_ids rest

/-- Step 6 of `batch_process_with_multi_signal` (lines 604-651): walk the
clusters in order; a cluster with no newly arrived image is skipped; a
multi-member cluster with a new image is materialized by
`create_product_group` (line 617) — after which, with multi-signal mode
enabled and `comparisons > 0` (lines 620, 640), the source re-runs the
`ProductGroup` constructor with `confidence` passed twice (lines
641-645), a `TypeError` that aborts the loop so that no later cluster is
processed; a singleton cluster with a new image is appended to the
ungrouped list (its sole element, `group_image_ids[0]`). -/
def materializeClusters (metadata_ids new_image_ids : List String) :
    List (List String) → Except BatchError (List (List String) × List String)
  | [] => .ok ([], [])
  | c :: rest =>
    if c.any (fun id => id ∈ new_image_ids) then
      if 1 < c.length then
        if multiSignalEnabled && decide (1 < c.length) then
          if 0 < metaComparisons metadata_ids c then
            .error .duplicateConfidenceKeyword
          else
            match materializeClusters metadata_ids new_image_ids rest with
            | .ok r => .ok (c :: r.1, r.2)
            | .error e => .error e
        else
          match materializeClusters metadata_ids new_image_ids rest with
          | .ok r => .ok (c :: r.1, r.2)
          | .error e => .error e
      else
        match materializeClusters metadata_ids new_image_ids rest with
        | .ok r => .ok (r.1, c.headI :: r.2)
        | .error e => .error e
    else materializeClusters metadata_ids new_image_ids rest

/-- Step 3 of `batch_process_with_multi_signal` (lines 563-570): each
successfully embedded image becomes a fresh `ProductEmbedding` record. -/
def batchNewEmbeddings (batch : BatchEmbedResult) : List ProductEmbedding :=
  batch.embeddings.map fun p => ⟨p.1, p.2, none⟩

/-- Step 4 of `batch_process_with_multi_signal` (lines 579-588): the new
embeddings, followed by the previously stored embeddings whose ids are
not shadowed by a new id, when merging with existing data is requested. -/
def batchAllEmbeddings (batch : BatchEmbedResult)
    (existing : List ProductEmbedding) (include_existing_embeddings : Bool) :
    List ProductEmbedding :=
  batchNewEmbeddings batch ++
    (if include_existing_embeddings then
      existing.filter fun e =>
        e.imageId ∉ (batchNewEmbeddings batch).map (·.imageId)
    else [])

/-- `batch_process_with_multi_signal` (lines 524-661), with its external
collaborators abstracted: `batch` is the outcome of the batched embedding
call, `existing` the tenant's previously stored embeddings fetched at
line 584, and `sim` the pairwise similarity used for clustering.
Successfully embedded images become fresh embedding records (line 566);
failed ids seed the ungrouped list (lines 576-577); existing records not
shadowed by a new id are merged in when requested (lines 583-588); the
combined set is clustered (line 592); step 6 then either materializes
every cluster into a group or an ungrouped report entry and the summary
of lines 655-661 is returned, or the duplicate-`confidence` `TypeError`
of lines 641-645 aborts the call and nothing is returned. -/
def batch_process_with_multi_signal (sim : ProductEmbedding → ProductEmbedding → ℚ)
    (threshold : ℚ) (batch : BatchEmbedResult)
    (existing : List ProductEmbedding) (include_existing_embeddings : Bool) :
    Except BatchError BatchOutput :=
  let groups := cluster_by_similarity sim threshold
    (batchAllEmbeddings batch existing include_existing_embeddings)
  match materializeClusters (batchMetadataIds batch)
      ((batchNewEmbeddings batch).map (·.imageId)) groups with
  | .ok r =>
    .ok { groups := r.1
          ungrouped := batch.errors ++ r.2
          processed := (batchNewEmbeddings batch).length }
  | .error e => .error e

/-! Claim theorems, C3 / C10 / C4 / C5. -/

/-- C3: under the default thresholds, `classify_similarity` maps a score
to `SAME_PRODUCT` iff it is at least `0.92`, to `LIKELY_SAME` iff it lies
in `[0.85, 0.92)`, to `POSSIBLY_SAME` iff it lies in `[0.75, 0.85)`, and
to `DIFFERENT` iff it is below `0.75`, so the bands are ordered
monotonically decreasing. -/
theorem classify_similarity_bands (s : ℚ) :
    (classify_similarity s = .SAME_PRODUCT ↔ 0.92 ≤ s) ∧
    (classify_similarity s = .LIKELY_SAME ↔ 0.85 ≤ s ∧ s < 0.92) ∧
    (classify_similarity s = .POSSIBLY_SAME ↔ 0.75 ≤ s ∧ s < 0.85) ∧
    (classify_similarity s = .DIFFERENT ↔ s < 0.75) := by
  unfold classify_similarity
  rw [THRESHOLD_SAME_PRODUCT_eq, THRESHOLD_LIKELY_SAME_eq,
    THRESHOLD_POSSIBLY_SAME_eq]
  split_ifs with h1 h2 h3 <;>
    refine ⟨?_, ?_, ?_, ?_⟩ <;>
    simp only [reduceCtorEq, false_iff, true_iff, iff_true, iff_false,
      eq_self_iff_true, not_and, not_lt, ge_iff_le] <;>
    first
      | linarith
      | (exact ⟨by linarith, by linarith⟩)
      | (intro h; linarith)

/-- C10: tenant sanitization keeps exactly the characters of the allowed
set `[a-zA-Z0-9_-]`, in order, so `"ab/c#1"` sanitizes to `"abc1"`, and a
tenant that is empty or strips to nothing fails with the invalid-tenant
error. -/
theorem sanitize_tenant_spec (tenant : String) :
    (∀ out, sanitize_tenant tenant = .ok out →
      out.data = tenant.data.filter isAllowedTenantChar ∧
      ∀ c ∈ out.data, isAllowedTenantChar c = true) ∧
    (sanitize_tenant tenant = .error .invalidTenant ↔
      tenant.data.filter isAllowedTenantChar = []) ∧
    sanitize_tenant "ab/c#1" = .ok "abc1" := by
  refine ⟨?_, ?_, rfl⟩
  · intro out hout
    simp only [sanitize_tenant] at hout
    split at hout
    · exact absurd hout (by simp)
    · cases hout
      exact ⟨rfl, fun c hc => List.of_mem_filter hc⟩
  · simp only [sanitize_tenant]
    constructor
    · intro h
      split at h
      · next hempty =>
        rw [String.isEmpty_iff, String.ext_iff] at hempty
        simpa [String.toList] using hempty
      · exact absurd h (by simp)
    · intro h
      rw [if_pos]
      rw [String.isEmpty_iff, String.ext_iff]
      simpa [String.toList] using h

/-- Witness for C10 at the spec's concrete scenario `"ab/c#1"`. -/
theorem sanitize_tenant_spec_witness :
    ("abc1" : String).data = ("ab/c#1" : String).data.filter isAllowedTenantChar ∧
    ∀ c ∈ ("abc1" : String).data, isAllowedTenantChar c = true :=
  (sanitize_tenant_spec "ab/c#1").1 "abc1" rfl

/-- Sum of squares of a real vector is nonnegative. -/
theorem sumSq_nonneg (a : List ℝ) : 0 ≤ sumSq a := by
  unfold sumSq
  refine List.sum_nonneg ?_
  intro x hx
  obtain ⟨y, -, rfl⟩ := List.mem_map.mp hx
  exact mul_self_nonneg y

/-- The dot product of a vector with itself is its sum of squares. -/
theorem dotProduct_self (a : List ℝ) : dotProduct a a = sumSq a := by
  unfold dotProduct sumSq
  rw [List.zipWith_same]

/-- C4: cosine similarity of a non-empty vector with itself is exactly
`1` (the spec's "valid" vector is one with non-zero norm, since the spec
separately prescribes the result `0` for a zero norm). -/
theorem cosine_similarity_self (a : List ℝ) (ha : a ≠ [])
    (hS : sumSq a ≠ 0) : cosine_similarity a a = .ok 1 := by
  have hempty : a.isEmpty = false := by
    simpa [List.isEmpty_iff] using ha
  have hsq : Real.sqrt (sumSq a) * Real.sqrt (sumSq a) = sumSq a :=
    Real.mul_self_sqrt (sumSq_nonneg a)
  unfold cosine_similarity
  rw [hempty]
  simp only [Bool.or_self, Bool.false_eq_true, if_false, ne_eq,
    not_true_eq_false, if_neg, not_false_eq_true, if_true]
  rw [if_pos (by rw [hsq]; exact hS)]
  rw [hsq, dotProduct_self, div_self hS]

/-- Witness for C4 at the one-dimensional vector `[1]`. -/
theorem cosine_similarity_self_witness :
    cosine_similarity [(1 : ℝ)] [(1 : ℝ)] = .ok 1 :=
  cosine_similarity_self [(1 : ℝ)] (by simp) (by norm_num [sumSq])

/-- C5: `cosine_similarity` raises the empty-vector error whenever either
argument is empty, raises the dimension-mismatch error for non-empty
vectors of different lengths, and returns `0` (no error) for equal-length
non-empty vectors whose norm product is zero. -/
theorem cosine_similarity_edge_cases (a b : List ℝ) :
    ((a = [] ∨ b = []) → cosine_similarity a b = .error .emptyVector) ∧
    (a ≠ [] → b ≠ [] → a.length ≠ b.length →
      cosine_similarity a b = .error .dimensionMismatch) ∧
    (a ≠ [] → b ≠ [] → a.length = b.length →
      Real.sqrt (sumSq a) * Real.sqrt (sumSq b) = 0 →
      cosine_similarity a b = .ok 0) := by
  refine ⟨?_, ?_, ?_⟩
  · intro h
    unfold cosine_similarity
    rw [if_pos]
    rcases h with h | h <;> simp [h]
  · intro ha hb hlen
    unfold cosine_similarity
    rw [if_neg (by simp [List.isEmpty_iff, ha, hb]), if_pos hlen]
  · intro ha hb hlen hnorm
    unfold cosine_similarity
    rw [if_neg (by simp [List.isEmpty_iff, ha, hb]),
      if_neg (by simp [hlen])]
    simp only [hnorm, ne_eq, not_true_eq_false, if_false,
      not_false_eq_true]

/-- Witness for C5: empty first argument, mismatched lengths, and a
zero-norm pair, each at concrete vectors. -/
theorem cosine_similarity_edge_cases_witness :
    cosine_similarity [] [(1 : ℝ)] = .error .emptyVector ∧
    cosine_similarity [(1 : ℝ)] [1, 2] = .error .dimensionMismatch ∧
    cosine_similarity [(0 : ℝ)] [1] = .ok 0 :=
  ⟨(cosine_similarity_edge_cases [] [(1 : ℝ)]).1 (Or.inl rfl),
   (cosine_similarity_edge_cases [(1 : ℝ)] [1, 2]).2.1 (by simp) (by simp)
     (by simp),
   (cosine_similarity_edge_cases [(0 : ℝ)] [1]).2.2 (by simp) (by simp)
     (by simp) (by simp [sumSq])⟩

/-! Claim theorems, C8 / C9: group lifecycle. -/

/-- The Product Group membership invariant of spec §3: non-empty,
duplicate-free member list containing the primary image. -/
def GroupInvariant (g : ProductGroup) : Prop :=
  g.imageIds ≠ [] ∧ g.imageIds.Nodup ∧ g.primaryImageId ∈ g.imageIds

/-- The head of a non-empty list is a member. -/
theorem headI_mem_of_ne_nil {α : Type} [Inhabited α] {l : List α}
    (h : l ≠ []) : l.headI ∈ l := by
  cases l with
  | nil => exact absurd rfl h
  | cons a t => exact List.mem_cons_self a t

/-- The conditional append rewrites the unique record keyed by `gid` and
leaves every other record untouched: looking the key up afterwards finds
the appended record. -/
theorem find?_appendToGroup (gid iid : String) (l : List ProductGroup) :
    (appendToGroup gid iid l).find? (fun g => g.groupId = gid) =
      (l.find? (fun g => g.groupId = gid)).map
        (fun g => { g with imageIds := g.imageIds ++ [iid] }) := by
  induction l with
  | nil => rfl
  | cons g rest ih =>
    unfold appendToGroup
    by_cases h : g.groupId = gid
    · rw [if_pos h, List.find?_cons_of_pos _ (by simp [h]),
        List.find?_cons_of_pos _ (by simp [h])]
      rfl
    · rw [if_neg h, List.find?_cons_of_neg _ (by simp [h]),
        List.find?_cons_of_neg _ (by simp [h]), ih]

/-- The conditional append preserves the membership invariant of every
group record, provided the target record does not already contain the
appended id. -/
theorem appendToGroup_invariant (gid iid : String) (l : List ProductGroup)
    (hfound : ∀ g, l.find? (fun g => g.groupId = gid) = some g →
      iid ∉ g.imageIds)
    (hinv : ∀ g ∈ l, GroupInvariant g) :
    ∀ g ∈ appendToGroup gid iid l, GroupInvariant g := by
  induction l with
  | nil => intro g hg; simp [appendToGroup] at hg
  | cons g rest ih =>
    unfold appendToGroup
    by_cases h : g.groupId = gid
    · rw [if_pos h]
      intro g' hg'
      rcases List.mem_cons.mp hg' with rfl | hmem
      · have hni : iid ∉ g.imageIds :=
          hfound g (List.find?_cons_of_pos _ (by simp [h]))
        obtain ⟨hne, hnd, hprim⟩ := hinv g (List.mem_cons_self g rest)
        exact ⟨by simp, by simp [List.nodup_append, hnd, hni],
          List.mem_append_left _ hprim⟩
      · exact hinv g' (List.mem_cons_of_mem _ hmem)
    · rw [if_neg h]
      intro g' hg'
      rcases List.mem_cons.mp hg' with rfl | hmem
      · exact hinv g' (List.mem_cons_self g' rest)
      · refine ih (fun g0 hg0 => hfound g0 ?_)
          (fun g0 hg0 => hinv g0 (List.mem_cons_of_mem _ hg0)) g' hmem
        rw [List.find?_cons_of_neg _ (by simp [h])]
        exact hg0

/-- C8 (part of C9 as well): with the group record for `gid` present,
adding an id that is already a member is a no-op returning the current
record, and adding a fresh id appends it once; a second identical call
then hits the failed condition and leaves the state and the membership
list unchanged, so the id ends up with exactly one entry. -/
theorem add_image_to_group_record_idempotent (s : GrouperState)
    (iid gid : String) (g : ProductGroup)
    (hfind : s.groups.find? (fun h => h.groupId = gid) = some g) :
    (iid ∈ g.imageIds → add_image_to_group_record s iid gid = (s, some g)) ∧
    (iid ∉ g.imageIds →
      (add_image_to_group_record s iid gid).2 =
        some { g with imageIds := g.imageIds ++ [iid] } ∧
      get_product_group_by_id (add_image_to_group_record s iid gid).1 gid =
        some { g with imageIds := g.imageIds ++ [iid] } ∧
      add_image_to_group_record (add_image_to_group_record s iid gid).1 iid gid =
        ((add_image_to_group_record s iid gid).1,
          some { g with imageIds := g.imageIds ++ [iid] }) ∧
      (g.imageIds.count iid = 0 → (g.imageIds ++ [iid]).count iid = 1)) := by
  constructor
  · intro hmem
    unfold add_image_to_group_record
    rw [hfind]
    dsimp only
    rw [if_pos hmem]
    unfold get_product_group_by_id
    rw [hfind]
  · intro hni
    have hstep : add_image_to_group_record s iid gid =
        ({ s with groups := appendToGroup gid iid s.groups },
          some { g with imageIds := g.imageIds ++ [iid] }) := by
      unfold add_image_to_group_record
      rw [hfind]
      dsimp only
      rw [if_neg hni]
    have hfind' : ({ s with groups := appendToGroup gid iid s.groups} :
        GrouperState).groups.find? (fun h => h.groupId = gid) =
        some { g with imageIds := g.imageIds ++ [iid] } := by
      show (appendToGroup gid iid s.groups).find? _ = _
      rw [find?_appendToGroup, hfind]
      rfl
    have hsecond : add_image_to_group_record
        { s with groups := appendToGroup gid iid s.groups } iid gid =
        ({ s with groups := appendToGroup gid iid s.groups },
          some { g with imageIds := g.imageIds ++ [iid] }) := by
      unfold add_image_to_group_record
      rw [hfind']
      dsimp only
      rw [if_pos (by simp)]
      unfold get_product_group_by_id
      rw [hfind']
    refine ⟨by rw [hstep], ?_, ?_, ?_⟩
    · rw [hstep]
      unfold get_product_group_by_id
      exact hfind'
    · rw [hstep]
      exact hsecond
    · intro h0
      rw [List.count_append, h0, List.count_singleton]
      simp

/-- Witness for C8 at a concrete one-group state: appending a fresh id
yields the record with exactly one new entry. -/
theorem add_image_to_group_record_idempotent_witness :
    (add_image_to_group_record
        ⟨[], [⟨"g1", "a", ["a"], none, none, 1, "t"⟩]⟩ "b" "g1").2 =
      some ⟨"g1", "a", ["a", "b"], none, none, 1, "t"⟩ :=
  ((add_image_to_group_record_idempotent
      ⟨[], [⟨"g1", "a", ["a"], none, none, 1, "t"⟩]⟩ "b" "g1"
      ⟨"g1", "a", ["a"], none, none, 1, "t"⟩ (by decide)).2 (by decide)).1

/-- Linking an image to a group touches only the embedding partition, so
a fold of link steps leaves the group partition unchanged. -/
theorem foldl_link_groups (ids : List String) (gid : String) :
    ∀ s : GrouperState,
      (ids.foldl (fun acc id => link_image_to_group acc id gid) s).groups =
        s.groups := by
  induction ids with
  | nil => intro s; rfl
  | cons i rest ih => intro s; rw [List.foldl_cons, ih]; rfl

/-- C9 (amended): `create_product_group` rejects an empty id list with
the empty-group error; for a non-empty duplicate-free id list the created
record satisfies the membership invariant and is appended to the group
partition; and the conditional append of `add_image_to_group_record`
preserves the invariant across the whole partition. -/
theorem product_group_operations_invariant (s : GrouperState)
    (image_ids : List String) (tenant gid : String)
    (pn cat : Option String) (iid group_id : String) :
    (create_product_group s [] tenant gid pn cat = .error .emptyGroup) ∧
    (image_ids ≠ [] → image_ids.Nodup →
      ∀ g s', create_product_group s image_ids tenant gid pn cat = .ok (g, s') →
        GroupInvariant g ∧ s'.groups = s.groups ++ [g]) ∧
    ((∀ g ∈ s.groups, GroupInvariant g) →
      ∀ g ∈ (add_image_to_group_record s iid group_id).1.groups,
        GroupInvariant g) := by
  refine ⟨rfl, ?_, ?_⟩
  · intro hne hnd g s' hok
    unfold create_product_group at hok
    rw [if_neg (by simpa [List.isEmpty_iff] using hne)] at hok
    dsimp only at hok
    cases hok
    constructor
    · exact ⟨hne, hnd, headI_mem_of_ne_nil hne⟩
    · rw [foldl_link_groups]
  · intro hinv g hg
    unfold add_image_to_group_record at hg
    cases hf : s.groups.find? (fun h => h.groupId = group_id) with
    | none => rw [hf] at hg; exact hinv g hg
    | some g0 =>
      rw [hf] at hg
      dsimp only at hg
      by_cases hmem : iid ∈ g0.imageIds
      · rw [if_pos hmem] at hg
        exact hinv g hg
      · rw [if_neg hmem] at hg
        exact appendToGroup_invariant group_id iid s.groups
          (fun g1 hg1 => by rw [hf] at hg1; cases hg1; exact hmem) hinv g hg

/-- Counterexample to C9 as stated: `create_product_group` copies its
`image_ids` argument verbatim into the record, so a duplicated input id
produces a group whose `imageIds` contains a duplicate, violating the
claimed invariant for "any non-empty imageIds argument". -/
theorem create_product_group_dup_counterexample :
    create_product_group ⟨[], []⟩ ["img1", "img1"] "t" "pg_1" =
      .ok (⟨"pg_1", "img1", ["img1", "img1"], none, none, 1, "t"⟩,
        ⟨[], [⟨"pg_1", "img1", ["img1", "img1"], none, none, 1, "t"⟩]⟩) ∧
    ¬ (["img1", "img1"] : List String).Nodup :=
  ⟨by decide, by decide⟩

/-- Witness for C9 at the concrete duplicate-free creation
`["a", "b"]`. -/
theorem product_group_operations_invariant_witness :
    GroupInvariant ⟨"pg_1", "a", ["a", "b"], none, none, 1, "t"⟩ :=
  ((product_group_operations_invariant ⟨[], []⟩ ["a", "b"] "t" "pg_1"
      none none "x" "y").2.1 (by decide) (by decide)
    ⟨"pg_1", "a", ["a", "b"], none, none, 1, "t"⟩
    ⟨[], [⟨"pg_1", "a", ["a", "b"], none, none, 1, "t"⟩]⟩ (by decide)).1

/-! Claim C1: the clustering engine partitions its input. -/

/-- When the scanned embeddings carry pairwise-distinct image ids, the
inner scan is a filter: it picks exactly the embeddings that were
unassigned at the start of the scan and reach the threshold against the
seed, and appends their ids to the assigned list (the ids it assigns
mid-scan can never match a later embedding, since ids are distinct). -/
theorem clusterScan_eq_filter (sim : ProductEmbedding → ProductEmbedding → ℚ)
    (θ : ℚ) (item : ProductEmbedding) (l : List ProductEmbedding) :
    ∀ assigned : List String, (l.map (·.imageId)).Nodup →
      clusterScan sim θ item l assigned =
        (((l.filter fun o =>
            decide (o.imageId ∉ assigned ∧ θ ≤ sim item o)).map (·.imageId)),
          assigned ++ (l.filter fun o =>
            decide (o.imageId ∉ assigned ∧ θ ≤ sim item o)).map (·.imageId)) := by
  induction l with
  | nil => intro assigned _; simp [clusterScan]
  | cons o rest ih =>
    intro assigned hnd
    rw [List.map_cons, List.nodup_cons] at hnd
    obtain ⟨hno, hnd'⟩ := hnd
    unfold clusterScan
    by_cases h1 : o.imageId ∈ assigned
    · rw [if_pos h1, List.filter_cons_of_neg (by simp [h1])]
      exact ih assigned hnd'
    · rw [if_neg h1]
      by_cases h2 : θ ≤ sim item o
      · rw [if_pos (by exact h2)]
        rw [ih (assigned ++ [o.imageId]) hnd']
        have hcongr : rest.filter (fun x =>
            decide (x.imageId ∉ assigned ++ [o.imageId] ∧ θ ≤ sim item x)) =
            rest.filter (fun x =>
              decide (x.imageId ∉ assigned ∧ θ ≤ sim item x)) := by
          refine List.filter_congr ?_
          intro x hx
          rw [decide_eq_decide]
          have hxo : x.imageId ≠ o.imageId := by
            intro hxe
            exact hno (hxe ▸ List.mem_map_of_mem (·.imageId) hx)
          simp [List.mem_append, hxo]
        rw [hcongr, List.filter_cons_of_pos (by simp [h1, h2])]
        simp [List.append_assoc]
      · rw [if_neg h2, List.filter_cons_of_neg (by simp [h1, h2])]
        exact ih assigned hnd'

/-- Every id the inner scan adds to a cluster belongs to a scanned
embedding whose similarity to the seed reaches the threshold. -/
theorem clusterScan_mem (sim : ProductEmbedding → ProductEmbedding → ℚ)
    (θ : ℚ) (item : ProductEmbedding) (l : List ProductEmbedding) :
    ∀ (assigned : List String) (x : String),
      x ∈ (clusterScan sim θ item l assigned).1 →
      ∃ o ∈ l, o.imageId = x ∧ θ ≤ sim item o := by
  induction l with
  | nil => intro assigned x hx; simp [clusterScan] at hx
  | cons o rest ih =>
    intro assigned x hx
    unfold clusterScan at hx
    by_cases h1 : o.imageId ∈ assigned
    · rw [if_pos h1] at hx
      obtain ⟨o', ho', rfl, hθ⟩ := ih assigned x hx
      exact ⟨o', List.mem_cons_of_mem _ ho', rfl, hθ⟩
    · rw [if_neg h1] at hx
      by_cases h2 : θ ≤ sim item o
      · rw [if_pos (by exact h2)] at hx
        rcases List.mem_cons.mp hx with rfl | hx'
        · exact ⟨o, List.mem_cons_self o rest, rfl, h2⟩
        · obtain ⟨o', ho', rfl, hθ⟩ := ih (assigned ++ [o.imageId]) x hx'
          exact ⟨o', List.mem_cons_of_mem _ ho', rfl, hθ⟩
      · rw [if_neg h2] at hx
        obtain ⟨o', ho', rfl, hθ⟩ := ih assigned x hx
        exact ⟨o', List.mem_cons_of_mem _ ho', rfl, hθ⟩

/-- Every cluster the outer loop emits is seeded by one of the remaining
embeddings, whose id heads the cluster, and every other member reaches
the threshold against that seed. -/
theorem clusterLoop_structure (sim : ProductEmbedding → ProductEmbedding → ℚ)
    (θ : ℚ) (all : List ProductEmbedding) :
    ∀ (rest : List ProductEmbedding) (assigned : List String)
      (c : List String), c ∈ clusterLoop sim θ all rest assigned →
      ∃ seed ∈ rest, c.head? = some seed.imageId ∧
        ∀ m ∈ c.tail, ∃ o ∈ all, o.imageId = m ∧ θ ≤ sim seed o := by
  intro rest
  induction rest with
  | nil => intro assigned c hc; simp [clusterLoop] at hc
  | cons item rest' ih =>
    intro assigned c hc
    unfold clusterLoop at hc
    by_cases h : item.imageId ∈ assigned
    · rw [if_pos h] at hc
      obtain ⟨seed, hseed, hhead, htail⟩ := ih assigned c hc
      exact ⟨seed, List.mem_cons_of_mem _ hseed, hhead, htail⟩
    · rw [if_neg h] at hc
      rcases List.mem_cons.mp hc with rfl | hc'
      · refine ⟨item, List.mem_cons_self item rest', rfl, ?_⟩
        intro m hm
        exact clusterScan_mem sim θ item all _ m hm
      · obtain ⟨seed, hseed, hhead, htail⟩ := ih _ c hc'
        exact ⟨seed, List.mem_cons_of_mem _ hseed, hhead, htail⟩

/-- Invariant run of the outer loop: when `rest` is the not-yet-iterated
suffix of the full embedding list, ids are pairwise distinct, and every
already-iterated embedding's id is assigned, the ids of the emitted
clusters are a permutation of the unassigned ids of `rest`. -/
theorem clusterLoop_flatten_perm (sim : ProductEmbedding → ProductEmbedding → ℚ)
    (θ : ℚ) (all : List ProductEmbedding)
    (hnd : (all.map (·.imageId)).Nodup) :
    ∀ (rest pre : List ProductEmbedding) (assigned : List String),
      all = pre ++ rest →
      (∀ e ∈ pre, e.imageId ∈ assigned) →
      ((clusterLoop sim θ all rest assigned).flatten).Perm
        ((rest.filter fun e => decide (e.imageId ∉ assigned)).map (·.imageId)) := by
  intro rest
  induction rest with
  | nil => intro pre assigned _ _; simp [clusterLoop]
  | cons item rest' ih =>
    intro pre assigned hall hpre
    have hnd2 : ((item :: rest').map (·.imageId)).Nodup := by
      refine List.Nodup.sublist ?_ hnd
      rw [hall]
      exact (List.sublist_append_right pre (item :: rest')).map _
    rw [List.map_cons, List.nodup_cons] at hnd2
    obtain ⟨hitem_notin, hnd'⟩ := hnd2
    have hinj := List.inj_on_of_nodup_map hnd'
    unfold clusterLoop
    by_cases h : item.imageId ∈ assigned
    · rw [if_pos h, List.filter_cons_of_neg (by simp [h])]
      refine ih (pre ++ [item]) assigned ?_ ?_
      · rw [hall, List.append_assoc, List.singleton_append]
      · intro e he
        rcases List.mem_append.mp he with he | he
        · exact hpre e he
        · rw [List.mem_singleton] at he
          exact he ▸ h
    · rw [if_neg h]
      rw [clusterScan_eq_filter sim θ item all _ hnd]
      dsimp only
      have hpre_nil : pre.filter (fun o =>
          decide (o.imageId ∉ assigned ++ [item.imageId] ∧ θ ≤ sim item o)) = [] := by
        refine List.filter_eq_nil_iff.mpr ?_
        intro e he
        simp [List.mem_append, hpre e he]
      have hcongrQ : rest'.filter (fun o =>
          decide (o.imageId ∉ assigned ++ [item.imageId] ∧ θ ≤ sim item o)) =
          rest'.filter (fun o =>
            decide (o.imageId ∉ assigned ∧ θ ≤ sim item o)) := by
        refine List.filter_congr ?_
        intro x hx
        rw [decide_eq_decide]
        have hxo : x.imageId ≠ item.imageId := by
          intro hxe
          exact hitem_notin (hxe ▸ List.mem_map_of_mem (·.imageId) hx)
        simp [List.mem_append, hxo]
      have hPQ : all.filter (fun o =>
          decide (o.imageId ∉ assigned ++ [item.imageId] ∧ θ ≤ sim item o)) =
          rest'.filter (fun o =>
            decide (o.imageId ∉ assigned ∧ θ ≤ sim item o)) := by
        rw [hall, List.filter_append, hpre_nil, List.nil_append,
          List.filter_cons_of_neg (by simp), hcongrQ]
      rw [hPQ]
      rw [List.flatten_cons, List.filter_cons_of_pos (by simp [h]), List.map_cons,
        List.cons_append]
      refine List.Perm.cons _ ?_
      have hmemQ : ∀ x ∈ rest', (x.imageId ∈ (rest'.filter (fun o =>
          decide (o.imageId ∉ assigned ∧ θ ≤ sim item o))).map (·.imageId) ↔
          (x.imageId ∉ assigned ∧ θ ≤ sim item x)) := by
        intro x hx
        constructor
        · intro hq
          obtain ⟨q, hqQ, hqid⟩ := List.mem_map.mp hq
          have hq_rest : q ∈ rest' := List.mem_of_mem_filter hqQ
          have hqx : q = x := hinj hq_rest hx hqid
          subst hqx
          have := List.mem_filter.mp hqQ
          simpa using this.2
        · rintro ⟨h1, h2⟩
          refine List.mem_map_of_mem _ (List.mem_filter.mpr ⟨hx, by simp [h1, h2]⟩)
      have hstepB : rest'.filter (fun o => decide (o.imageId ∉
          (assigned ++ [item.imageId]) ++ ((rest'.filter (fun o =>
            decide (o.imageId ∉ assigned ∧ θ ≤ sim item o))).map (·.imageId)))) =
          rest'.filter (fun o =>
            decide (o.imageId ∉ assigned ∧ ¬ θ ≤ sim item o)) := by
        refine List.filter_congr ?_
        intro x hx
        rw [decide_eq_decide]
        have hxo : x.imageId ≠ item.imageId := by
          intro hxe
          exact hitem_notin (hxe ▸ List.mem_map_of_mem (·.imageId) hx)
        constructor
        · intro hA
          have h1 : x.imageId ∉ assigned := fun hc =>
            hA (List.mem_append_left _ (List.mem_append_left _ hc))
          refine ⟨h1, fun hθ =>
            hA (List.mem_append_right _ ((hmemQ x hx).mpr ⟨h1, hθ⟩))⟩
        · rintro ⟨h1, h2⟩ hA
          rcases List.mem_append.mp hA with hA' | hA'
          · rcases List.mem_append.mp hA' with hA'' | hA''
            · exact h1 hA''
            · exact hxo (List.mem_singleton.mp hA'')
          · exact h2 ((hmemQ x hx).mp hA').2
      have hIH := ih (pre ++ [item])
        ((assigned ++ [item.imageId]) ++ ((rest'.filter (fun o =>
          decide (o.imageId ∉ assigned ∧ θ ≤ sim item o))).map (·.imageId)))
        (by rw [hall, List.append_assoc, List.singleton_append])
        (by
          intro e he
          rcases List.mem_append.mp he with he | he
          · exact List.mem_append_left _ (List.mem_append_left _ (hpre e he))
          · rw [List.mem_singleton] at he
            exact List.mem_append_left _ (List.mem_append_right _ (by simp [he])))
      rw [hstepB] at hIH
      have hsplitQ : rest'.filter (fun o =>
          decide (o.imageId ∉ assigned ∧ θ ≤ sim item o)) =
          (rest'.filter (fun e => decide (e.imageId ∉ assigned))).filter
            (fun o => decide (θ ≤ sim item o)) := by
        rw [List.filter_filter]
        refine List.filter_congr ?_
        intro x _
        by_cases h1 : x.imageId ∈ assigned <;>
          by_cases h2 : θ ≤ sim item x <;> simp [h1, h2]
      have hsplitR : rest'.filter (fun o =>
          decide (o.imageId ∉ assigned ∧ ¬ θ ≤ sim item o)) =
          (rest'.filter (fun e => decide (e.imageId ∉ assigned))).filter
            (fun o => !(decide (θ ≤ sim item o))) := by
        rw [List.filter_filter]
        refine List.filter_congr ?_
        intro x _
        by_cases h1 : x.imageId ∈ assigned <;>
          by_cases h2 : θ ≤ sim item x <;> simp [h1, h2]
      refine List.Perm.trans (List.Perm.append_left _ hIH) ?_
      rw [hsplitQ, hsplitR, ← List.map_append]
      exact (List.filter_append_perm _ _).map _

/-- C1: for pairwise-distinct image ids, every threshold, and every
similarity function, greedy clustering partitions the input: the
concatenation of the output clusters is a permutation of the input ids
(so every input id lands in exactly one cluster), each cluster is headed
by its seed and every other member reaches the threshold against the
seed (not against other members), and the first cluster consists of the
first embedding's id followed by the ids of exactly those remaining
embeddings similar enough to it, in input order. -/
theorem cluster_by_similarity_partitions
    (sim : ProductEmbedding → ProductEmbedding → ℚ) (θ : ℚ)
    (embeddings : List ProductEmbedding)
    (hnd : (embeddings.map (·.imageId)).Nodup) :
    ((cluster_by_similarity sim θ embeddings).flatten).Perm
      (embeddings.map (·.imageId)) ∧
    (∀ c ∈ cluster_by_similarity sim θ embeddings,
      ∃ seed ∈ embeddings, c.head? = some seed.imageId ∧
        ∀ m ∈ c.tail, ∃ o ∈ embeddings, o.imageId = m ∧ θ ≤ sim seed o) ∧
    (∀ e rest, embeddings = e :: rest →
      (cluster_by_similarity sim θ embeddings).head? =
        some (e.imageId ::
          (rest.filter fun o => decide (θ ≤ sim e o)).map (·.imageId))) := by
  refine ⟨?_, ?_, ?_⟩
  · have h := clusterLoop_flatten_perm sim θ embeddings hnd embeddings [] []
      rfl (by simp)
    simpa using h
  · intro c hc
    exact clusterLoop_structure sim θ embeddings embeddings [] c hc
  · rintro e rest rfl
    rw [List.map_cons, List.nodup_cons] at hnd
    obtain ⟨hno, hnd'⟩ := hnd
    unfold cluster_by_similarity clusterLoop
    rw [if_neg (List.not_mem_nil _)]
    rw [clusterScan_eq_filter sim θ e (e :: rest) _
      (by rw [List.map_cons, List.nodup_cons]; exact ⟨hno, hnd'⟩)]
    dsimp only
    rw [List.filter_cons_of_neg (by simp), List.head?_cons]
    have hcongr : rest.filter (fun o =>
        decide (o.imageId ∉ ([] : List String) ++ [e.imageId] ∧ θ ≤ sim e o)) =
        rest.filter (fun o => decide (θ ≤ sim e o)) := by
      refine List.filter_congr ?_
      intro x hx
      rw [decide_eq_decide]
      have hxo : x.imageId ≠ e.imageId := by
        intro hxe
        exact hno (hxe ▸ List.mem_map_of_mem (·.imageId) hx)
      simp [hxo]
    rw [hcongr]

/-- Witness for C1 at three concrete embeddings, two of which match the
seed. -/
theorem cluster_by_similarity_partitions_witness :
    ((cluster_by_similarity
        (fun a b => if a.embedding = b.embedding then 1 else 0) (0.92 : ℚ)
        [⟨"a", [1], none⟩, ⟨"b", [2], none⟩, ⟨"c", [1], none⟩]).flatten).Perm
      (([⟨"a", [1], none⟩, ⟨"b", [2], none⟩, ⟨"c", [1], none⟩] :
        List ProductEmbedding).map (·.imageId)) :=
  (cluster_by_similarity_partitions _ _ _ (by decide)).1

/-! Claims C6 / C7: the batch pipeline. -/

/-- The ids of the clusters of a duplicate-free embedding list are a
permutation of the input ids (the outer-loop invariant at its initial
state). -/
theorem cluster_flatten_perm (sim : ProductEmbedding → ProductEmbedding → ℚ)
    (θ : ℚ) (l : List ProductEmbedding)
    (hnd : (l.map (·.imageId)).Nodup) :
    ((cluster_by_similarity sim θ l).flatten).Perm (l.map (·.imageId)) := by
  have h := clusterLoop_flatten_perm sim θ l hnd l [] [] rfl (by simp)
  simpa using h

/-- C6: the claimed materialization behaviour is not what the source
does.  At the concrete two-image batch `{a, b}` — both embeddings
succeed and are mutually similar, so clustering yields one two-member
all-new cluster — step 6 creates the group record (line 617) and then,
multi-signal mode being hard-coded on (line 536) and both members
carrying features (`comparisons > 0`), re-runs the `ProductGroup`
constructor with the `confidence` keyword passed twice (lines 641-645).
That `TypeError` aborts the pipeline: the group is never reported and no
summary is returned, where the claim (and spec §4.6 step 6) prescribes a
materialized Product Group in the returned summary. -/
theorem batch_multi_new_cluster_aborts :
    batch_process_with_multi_signal (fun _ _ => 1) 1
      ⟨[("a", [1]), ("b", [1])], []⟩ [] false =
      .error .duplicateConfidenceKeyword := by
  decide

/-- C7: one image failing does not leave a batch that still completes.
When image `f` of a three-image batch fails embedding while its siblings
`a`, `b` embed successfully and fall into one two-member all-new
cluster, the pipeline aborts with the duplicate-`confidence` `TypeError`
of lines 641-645 while materializing that cluster: no summary — and with
it no result for `a` and `b` and no failure list carrying `f` — is ever
returned, where the claim prescribes completion with results for the
siblings and `f` only in the failure list. -/
theorem batch_partial_failure_aborts :
    batch_process_with_multi_signal (fun _ _ => 1) 1
      ⟨[("a", [1]), ("b", [1])], ["f"]⟩ [] false =
      .error .duplicateConfidenceKeyword := by
  decide

/-! Claim C2: the per-image orchestrator. -/

/-- Inserting into the descending sort permutes a cons. -/
theorem insertDesc_perm (m : SimilarityMatch) (l : List SimilarityMatch) :
    (insertDesc m l).Perm (m :: l) := by
  induction l with
  | nil => exact List.Perm.refl _
  | cons x xs ih =>
    unfold insertDesc
    by_cases h : x.similarity ≤ m.similarity
    · rw [if_pos h]
    · rw [if_neg h]
      exact (ih.cons x).trans (List.Perm.swap m x xs)

/-- The descending sort permutes its input. -/
theorem sortDesc_perm (l : List SimilarityMatch) : (sortDesc l).Perm l := by
  induction l with
  | nil => exact List.Perm.refl _
  | cons m ms ih =>
    exact (insertDesc_perm m (sortDesc ms)).trans (ih.cons m)

/-- Inserting into a descending-sorted list keeps it sorted. -/
theorem insertDesc_sorted (m : SimilarityMatch) (l : List SimilarityMatch)
    (hl : l.Pairwise (fun a b => b.similarity ≤ a.similarity)) :
    (insertDesc m l).Pairwise (fun a b => b.similarity ≤ a.similarity) := by
  induction l with
  | nil => simp [insertDesc]
  | cons x xs ih =>
    rw [List.pairwise_cons] at hl
    obtain ⟨hx, hxs⟩ := hl
    unfold insertDesc
    by_cases h : x.similarity ≤ m.similarity
    · rw [if_pos h]
      refine List.pairwise_cons.mpr ⟨?_, List.pairwise_cons.mpr ⟨hx, hxs⟩⟩
      intro y hy
      rcases List.mem_cons.mp hy with rfl | hy'
      · exact h
      · exact le_trans (hx y hy') h
    · rw [if_neg h]
      refine List.pairwise_cons.mpr ⟨?_, ih hxs⟩
      intro y hy
      rcases List.mem_cons.mp ((insertDesc_perm m xs).mem_iff.mp hy) with rfl | hy'
      · exact le_of_not_le h
      · exact hx y hy'

/-- The descending sort sorts: later elements never exceed earlier
ones. -/
theorem sortDesc_sorted (l : List SimilarityMatch) :
    (sortDesc l).Pairwise (fun a b => b.similarity ≤ a.similarity) := by
  induction l with
  | nil => simp [sortDesc]
  | cons m ms ih => exact insertDesc_sorted m (sortDesc ms) ih

/-- The head of a descending-sorted list dominates every element. -/
theorem head_max_of_sortedDesc (l : List SimilarityMatch) (bm : SimilarityMatch)
    (hs : l.Pairwise (fun a b => b.similarity ≤ a.similarity))
    (hh : l.head? = some bm) : ∀ m ∈ l, m.similarity ≤ bm.similarity := by
  cases l with
  | nil => simp at hh
  | cons x xs =>
    rw [List.head?_cons, Option.some_inj] at hh
    subst hh
    rw [List.pairwise_cons] at hs
    intro m hm
    rcases List.mem_cons.mp hm with rfl | hm'
    · exact le_refl _
    · exact hs.1 m hm'

/-- The candidate list of `find_similar_images` is sorted by descending
similarity. -/
theorem find_similar_images_sorted (sim : List ℚ → List ℚ → ℚ)
    (s : GrouperState) (emb : List ℚ) (ex : Option String) :
    (find_similar_images sim s emb ex).Pairwise
      (fun a b => b.similarity ≤ a.similarity) :=
  sortDesc_sorted _

/-- Membership characterization of `find_similar_images`: the candidates
are exactly the stored embeddings other than the excluded id whose
classified similarity is not `DIFFERENT`, carried with their similarity,
classification, and group id. -/
theorem find_similar_images_mem (sim : List ℚ → List ℚ → ℚ)
    (s : GrouperState) (emb : List ℚ) (ex : Option String)
    (m : SimilarityMatch) :
    m ∈ find_similar_images sim s emb ex ↔
      ∃ e ∈ s.embeddings, ¬ ex = some e.imageId ∧
        classify_similarity (sim emb e.embedding) ≠ .DIFFERENT ∧
        m = ⟨e.imageId, sim emb e.embedding,
          classify_similarity (sim emb e.embedding), e.productGroupId⟩ := by
  unfold find_similar_images
  rw [(sortDesc_perm _).mem_iff, List.mem_filterMap]
  constructor
  · rintro ⟨e, he, hfe⟩
    by_cases h1 : ex = some e.imageId
    · rw [if_pos h1] at hfe
      exact absurd hfe (by simp)
    · rw [if_neg h1] at hfe
      dsimp only at hfe
      by_cases h2 : classify_similarity (sim emb e.embedding) ≠ .DIFFERENT
      · rw [if_pos h2] at hfe
        cases hfe
        exact ⟨e, he, h1, h2, rfl⟩
      · rw [if_neg h2] at hfe
        exact absurd hfe (by simp)
  · rintro ⟨e, he, h1, h2, rfl⟩
    refine ⟨e, he, ?_⟩
    rw [if_neg h1]
    dsimp only
    rw [if_pos h2]

/-- The conditional append changes no group's id. -/
theorem appendToGroup_map_groupId (gid iid : String) (l : List ProductGroup) :
    (appendToGroup gid iid l).map (·.groupId) = l.map (·.groupId) := by
  induction l with
  | nil => rfl
  | cons g rest ih =>
    unfold appendToGroup
    by_cases h : g.groupId = gid
    · rw [if_pos h]
      rfl
    · rw [if_neg h, List.map_cons, List.map_cons, ih]

/-- The conditional append leaves the embedding partition alone. -/
theorem add_image_embeddings (s : GrouperState) (iid gid : String) :
    ((add_image_to_group_record s iid gid).1).embeddings = s.embeddings := by
  unfold add_image_to_group_record
  cases hf : s.groups.find? (fun g => g.groupId = gid) with
  | none => rfl
  | some g =>
    dsimp only
    by_cases h : iid ∈ g.imageIds
    · rw [if_pos h]
    · rw [if_neg h]

/-- The conditional append creates no group and renames none. -/
theorem add_image_groups_ids (s : GrouperState) (iid gid : String) :
    ((add_image_to_group_record s iid gid).1).groups.map (·.groupId) =
      s.groups.map (·.groupId) := by
  unfold add_image_to_group_record
  cases hf : s.groups.find? (fun g => g.groupId = gid) with
  | none => rfl
  | some g =>
    dsimp only
    by_cases h : iid ∈ g.imageIds
    · rw [if_pos h]
    · rw [if_neg h]
      exact appendToGroup_map_groupId gid iid s.groups

/-- Linking writes the group id onto the embedding record of the linked
image. -/
theorem link_sets_group (s : GrouperState) (iid gid : String) :
    ∀ e ∈ (link_image_to_group s iid gid).embeddings,
      e.imageId = iid → e.productGroupId = some gid := by
  intro e he heq
  obtain ⟨e0, he0, hi⟩ := List.mem_map.mp he
  by_cases h : e0.imageId = iid
  · rw [if_pos h] at hi
    rw [← hi]
  · rw [if_neg h] at hi
    exact absurd (hi ▸ heq) h

/-- Linking never touches the group partition. -/
theorem link_image_groups (s : GrouperState) (iid gid : String) :
    (link_image_to_group s iid gid).groups = s.groups := rfl

/-- Storing an embedding never touches the group partition. -/
theorem store_embedding_groups (s : GrouperState) (iid : String)
    (emb : List ℚ) : (store_embedding s iid emb).groups = s.groups := by
  unfold store_embedding
  split <;> rfl

/-- Running `create_product_group` on a non-empty id list succeeds with
the record built from the first id, confidence `1`, and the group
appended to the group partition. -/
theorem create_product_group_run (s1 : GrouperState) (ids : List String)
    (tenant gid : String) (h : ids.isEmpty = false) :
    ∃ s2, create_product_group s1 ids tenant gid =
        .ok (⟨gid, ids.headI, ids, none, none, 1, tenant⟩, s2) ∧
      s2.groups = s1.groups ++ [⟨gid, ids.headI, ids, none, none, 1, tenant⟩] := by
  unfold create_product_group
  rw [if_neg (by simp [h])]
  dsimp only
  refine ⟨_, rfl, ?_⟩
  rw [foldl_link_groups]

/-- C2 (amended): the candidate matches are the stored embeddings other
than the image's own id whose classification is not `DIFFERENT`, ranked
by descending similarity, and the decision is taken on the best match: a
`SAME_PRODUCT` match carrying a group id links the image into that group
and creates nothing; a `SAME_PRODUCT` match without a group, or a
`LIKELY_SAME` match (with or without a group), creates exactly one new
two-member group `{image, match}` whose confidence is the constant `1.0`
(not the match score); a `POSSIBLY_SAME` best match, or no match at all,
neither creates nor joins a group. -/
theorem process_image_decision (sim : List ℚ → List ℚ → ℚ) (s : GrouperState)
    (iid : String) (emb : List ℚ) (tenant gid : String) :
    (process_image_for_grouping sim s iid emb tenant gid).2.similarImages =
      find_similar_images sim (store_embedding s iid emb) emb (some iid) ∧
    (find_similar_images sim (store_embedding s iid emb) emb (some iid)).Pairwise
      (fun a b => b.similarity ≤ a.similarity) ∧
    (∀ m, m ∈ find_similar_images sim (store_embedding s iid emb) emb (some iid) ↔
      ∃ e ∈ (store_embedding s iid emb).embeddings, e.imageId ≠ iid ∧
        classify_similarity (sim emb e.embedding) ≠ .DIFFERENT ∧
        m = ⟨e.imageId, sim emb e.embedding,
          classify_similarity (sim emb e.embedding), e.productGroupId⟩) ∧
    ((find_similar_images sim (store_embedding s iid emb) emb (some iid)).head? =
        none →
      (process_image_for_grouping sim s iid emb tenant gid).1 =
        store_embedding s iid emb ∧
      (process_image_for_grouping sim s iid emb tenant gid).2.assignedGroup =
        none ∧
      (process_image_for_grouping sim s iid emb tenant gid).2.isNewGroup =
        false) ∧
    (∀ bm, (find_similar_images sim (store_embedding s iid emb) emb
        (some iid)).head? = some bm →
      (∀ m ∈ find_similar_images sim (store_embedding s iid emb) emb (some iid),
        m.similarity ≤ bm.similarity) ∧
      (∀ g, bm.matchType = .SAME_PRODUCT → bm.groupId = some g →
        (process_image_for_grouping sim s iid emb tenant gid).2.isNewGroup =
          false ∧
        (process_image_for_grouping sim s iid emb tenant gid).1.groups.map
          (·.groupId) = s.groups.map (·.groupId) ∧
        (∀ e ∈ (process_image_for_grouping sim s iid emb tenant gid).1.embeddings,
          e.imageId = iid → e.productGroupId = some g)) ∧
      ((bm.matchType = .SAME_PRODUCT ∧ bm.groupId = none) ∨
          bm.matchType = .LIKELY_SAME →
        (process_image_for_grouping sim s iid emb tenant gid).2.isNewGroup =
          true ∧
        (process_image_for_grouping sim s iid emb tenant gid).2.assignedGroup =
          some ⟨gid, iid, [iid, bm.imageId], none, none, 1, tenant⟩ ∧
        (process_image_for_grouping sim s iid emb tenant gid).1.groups =
          s.groups ++ [⟨gid, iid, [iid, bm.imageId], none, none, 1, tenant⟩]) ∧
      (bm.matchType = .POSSIBLY_SAME →
        (process_image_for_grouping sim s iid emb tenant gid).1 =
          store_embedding s iid emb ∧
        (process_image_for_grouping sim s iid emb tenant gid).2.assignedGroup =
          none ∧
        (process_image_for_grouping sim s iid emb tenant gid).2.isNewGroup =
          false)) := by
  refine ⟨?_, find_similar_images_sorted sim _ emb (some iid), ?_, ?_, ?_⟩
  · unfold process_image_for_grouping
    dsimp only
    cases hh : (find_similar_images sim (store_embedding s iid emb) emb
        (some iid)).head? with
    | none => rfl
    | some bm =>
      dsimp only
      by_cases hc : bm.matchType = .SAME_PRODUCT ∧ bm.groupId.isSome
      · rw [dif_pos hc]
      · rw [dif_neg hc]
        by_cases hc2 : bm.matchType = .SAME_PRODUCT ∨ bm.matchType = .LIKELY_SAME
        · rw [if_pos hc2]
          obtain ⟨s2, hcr, -⟩ := create_product_group_run
            (store_embedding s iid emb) [iid, bm.imageId] tenant gid rfl
          rw [hcr]
        · rw [if_neg hc2]
  · intro m
    rw [find_similar_images_mem sim (store_embedding s iid emb) emb (some iid) m]
    constructor
    · rintro ⟨e, he, h1, h2, h3⟩
      exact ⟨e, he, fun hx => h1 (by rw [hx]), h2, h3⟩
    · rintro ⟨e, he, h1, h2, h3⟩
      exact ⟨e, he, fun hx => h1 (Option.some_inj.mp hx).symm, h2, h3⟩
  · intro hh
    unfold process_image_for_grouping
    dsimp only
    rw [hh]
    exact ⟨rfl, rfl, rfl⟩
  · intro bm hh
    refine ⟨head_max_of_sortedDesc _ bm
      (find_similar_images_sorted sim _ emb (some iid)) hh, ?_, ?_, ?_⟩
    · intro g hmt hg
      have hc : bm.matchType = .SAME_PRODUCT ∧ bm.groupId.isSome :=
        ⟨hmt, by rw [hg]; rfl⟩
      unfold process_image_for_grouping
      dsimp only
      rw [hh]
      dsimp only
      rw [dif_pos hc]
      simp only [hg, Option.get_some]
      refine ⟨by trivial, ?_, ?_⟩
      · rw [add_image_groups_ids, link_image_groups, store_embedding_groups]
      · intro e he heq
        rw [add_image_embeddings] at he
        exact link_sets_group _ iid g e he heq
    · intro hcase
      have hc : ¬ (bm.matchType = .SAME_PRODUCT ∧ bm.groupId.isSome) := by
        rcases hcase with ⟨hmt, hgnone⟩ | hmt
        · rintro ⟨-, h2⟩
          rw [hgnone] at h2
          simp at h2
        · rintro ⟨h1, -⟩
          rw [hmt] at h1
          exact absurd h1 (by decide)
      have hc2 : bm.matchType = .SAME_PRODUCT ∨ bm.matchType = .LIKELY_SAME := by
        rcases hcase with ⟨hmt, -⟩ | hmt
        · exact Or.inl hmt
        · exact Or.inr hmt
      unfold process_image_for_grouping
      dsimp only
      rw [hh]
      dsimp only
      rw [dif_neg hc, if_pos hc2]
      obtain ⟨s2, hcr, hgr⟩ := create_product_group_run
        (store_embedding s iid emb) [iid, bm.imageId] tenant gid rfl
      rw [hcr]
      dsimp only
      refine ⟨rfl, rfl, ?_⟩
      rw [hgr, store_embedding_groups]
      rfl
    · intro hmt
      have hc : ¬ (bm.matchType = .SAME_PRODUCT ∧ bm.groupId.isSome) := by
        rintro ⟨h1, -⟩
        rw [hmt] at h1
        exact absurd h1 (by decide)
      have hc2 : ¬ (bm.matchType = .SAME_PRODUCT ∨ bm.matchType = .LIKELY_SAME) := by
        rintro (h | h) <;> rw [hmt] at h <;> exact absurd h (by decide)
      unfold process_image_for_grouping
      dsimp only
      rw [hh]
      dsimp only
      rw [dif_neg hc, if_neg hc2]
      exact ⟨rfl, rfl, rfl⟩

/-- Counterexample to C2 as stated: with a single stored embedding whose
match classifies as `LIKELY_SAME` (score `0.86`) and which already
carries the group id `"g0"`, the orchestrator still creates a brand-new
two-member group — the claim prescribes no group for that case
(`LIKELY_SAME` only when the match "has no group") — and the created
group's confidence is the constant `1`, not the match score. -/
theorem process_image_decision_counterexample :
    (process_image_for_grouping (fun _ _ => mkRat 86 100)
        ⟨[⟨"m", [1], some "g0"⟩], [⟨"g0", "m", ["m"], none, none, 1, "t"⟩]⟩
        "img" [1] "t" "g1").2.similarImages.head? =
      some ⟨"m", mkRat 86 100, .LIKELY_SAME, some "g0"⟩ ∧
    (process_image_for_grouping (fun _ _ => mkRat 86 100)
        ⟨[⟨"m", [1], some "g0"⟩], [⟨"g0", "m", ["m"], none, none, 1, "t"⟩]⟩
        "img" [1] "t" "g1").2.isNewGroup = true ∧
    (process_image_for_grouping (fun _ _ => mkRat 86 100)
        ⟨[⟨"m", [1], some "g0"⟩], [⟨"g0", "m", ["m"], none, none, 1, "t"⟩]⟩
        "img" [1] "t" "g1").2.assignedGroup =
      some ⟨"g1", "img", ["img", "m"], none, none, 1, "t"⟩ := by
  decide

/-- Witness for C2 at a concrete group-less `SAME_PRODUCT` match (score
`0.95`): exactly one new two-member group is created. -/
theorem process_image_decision_witness :
    (process_image_for_grouping (fun _ _ => mkRat 95 100)
        ⟨[⟨"m", [1], none⟩], []⟩ "img" [1] "t" "g1").2.assignedGroup =
      some ⟨"g1", "img", ["img", "m"], none, none, 1, "t"⟩ :=
  (((process_image_decision (fun _ _ => mkRat 95 100)
      ⟨[⟨"m", [1], none⟩], []⟩ "img" [1] "t" "g1").2.2.2.2
      ⟨"m", mkRat 95 100, .SAME_PRODUCT, none⟩ (by decide)).2.2.1
    (Or.inl ⟨rfl, rfl⟩)).2.1

end ProductGrouper
